import Mathlib

/-!
Shallow embedding of the `cs2_meeting_points` Rust crate
(`src/position.rs`, `src/constants.rs`, `src/collisions.rs`, `src/nav.rs`,
`src/spread.rs`) together with theorems settling the specification claims.

Modelling conventions:
* Rust `f64` values are modelled as real numbers (`ℝ`); every floating-point
  literal in the source is an exact decimal, and is embedded as the exact
  rational it denotes.  `f64::hypot a b` is embedded as `Real.sqrt (a^2+b^2)`,
  `f64::sqrt` as `Real.sqrt`, `f64::MAX` as the exact value `2^1024 - 2^971`.
* Bool-returning Rust functions become `Prop`-valued definitions with the same
  branch structure; since comparison of reals is not decidable, definitions in
  this file are noncomputable and classical.
* Rust `u32` ids are modelled as `Nat`; hash maps keyed by id are modelled as
  association lists whose order stands for the map's iteration order.
-/

noncomputable section
open Classical

/-! ## Constants (`src/constants.rs`) -/

def RUNNING_SPEED : ℝ := 250.0

def GRAVITY : ℝ := 800.0

def CROUCHING_SPEED : ℝ := 85.0

def CROUCHING_ATTRIBUTE_FLAG : Nat := 65536

def JUMP_HEIGHT : ℝ := 55.83

def CROUCH_JUMP_HEIGHT_GAIN : ℝ := 66.02 - JUMP_HEIGHT

def PLAYER_WIDTH : ℝ := 32.0

def PLAYER_HEIGHT : ℝ := 72.0

def PLAYER_EYE_LEVEL : ℝ := 64.093811

def PLAYER_CROUCH_HEIGHT : ℝ := 54.0

/-- `constants::jump_speed`: `sqrt(2 * GRAVITY * JUMP_HEIGHT)`. -/
def jump_speed : ℝ := Real.sqrt (2.0 * GRAVITY * JUMP_HEIGHT)

/-! ## `Position` (`src/position.rs`) -/

structure Position where
  x : ℝ
  y : ℝ
  z : ℝ
deriving DecidableEq

namespace Position

def add (p q : Position) : Position := ⟨p.x + q.x, p.y + q.y, p.z + q.z⟩

def sub (p q : Position) : Position := ⟨p.x - q.x, p.y - q.y, p.z - q.z⟩

def dot (p q : Position) : ℝ := p.x * q.x + p.y * q.y + p.z * q.z

def cross (p q : Position) : Position :=
  ⟨p.y * q.z - p.z * q.y, p.z * q.x - p.x * q.z, p.x * q.y - p.y * q.x⟩

/-- `Position::length`: `sqrt(x² + y² + z²)`. -/
def length (p : Position) : ℝ := Real.sqrt (p.x ^ 2 + p.y ^ 2 + p.z ^ 2)

/-- `Position::normalize`: zero vector if the length is zero, else the scaled vector. -/
def normalize (p : Position) : Position :=
  if p.length = 0 then ⟨0, 0, 0⟩ else ⟨p.x / p.length, p.y / p.length, p.z / p.length⟩

/-- `Position::distance`: 3D Euclidean distance. -/
def distance (p q : Position) : ℝ := (p.sub q).length

/-- `Position::distance_2d`: `(self.x - other.x).hypot(self.y - other.y)`. -/
def distance_2d (p q : Position) : ℝ := Real.sqrt ((p.x - q.x) ^ 2 + (p.y - q.y) ^ 2)

/-- `Position::can_jump_to` (src/position.rs:55-76), with the exact branch
structure of the source: early `true` when the 2D distance is non-positive,
otherwise the ballistic apex test after the foothold-width allowance. -/
def can_jump_to (self other : Position) : Prop :=
  let h_distance := self.distance_2d other
  if h_distance ≤ 0 then True
  else
    let foothold_width_correction := PLAYER_WIDTH * 1.15
    let h_distance' := max 0 (h_distance - foothold_width_correction)
    let t := max (h_distance' / RUNNING_SPEED) (jump_speed / GRAVITY)
    let z_at_dest := self.z + jump_speed * t - 0.5 * GRAVITY * t * t + CROUCH_JUMP_HEIGHT_GAIN
    z_at_dest ≥ other.z

end Position

/-! ## Nav areas and the nav graph (`src/nav.rs`) -/

/-- `nav::centroid` (src/nav.rs:71-80): `(0,0,0)` for an empty corner list,
otherwise the componentwise mean of the corners computed by a fold. -/
def navCentroid (corners : List Position) : Position :=
  if corners = [] then ⟨0, 0, 0⟩
  else
    let s := corners.foldl
      (fun (acc : ℝ × ℝ × ℝ) c => (acc.1 + c.x, acc.2.1 + c.y, acc.2.2 + c.z)) (0, 0, 0)
    let count : ℝ := corners.length
    ⟨s.1 / count, s.2.1 / count, s.2.2 / count⟩

/-- `NavArea` (src/nav.rs:51-61).  `dynamic_attribute_flags` is the wrapped
`u32` of `DynamicAttributeFlags`. -/
structure NavArea where
  area_id : Nat
  hull_index : Nat
  dynamic_attribute_flags : Nat
  corners : List Position
  connections : List Nat
  ladders_above : List Nat
  ladders_below : List Nat
  centroid : Position

/-- `NavArea::new` (src/nav.rs:83-102): caches the centroid of the corners. -/
def NavArea.new (area_id : Nat) (dynamic_attribute_flags : Nat) (corners : List Position)
    (connections : List Nat) (ladders_above : List Nat) (ladders_below : List Nat) : NavArea :=
  ⟨area_id, 0, dynamic_attribute_flags, corners, connections, ladders_above, ladders_below,
    navCentroid corners⟩

/-- `AreaLike::requires_crouch` for `NavArea`: exact equality with the crouch
flag value `65536`. -/
def NavArea.requires_crouch (a : NavArea) : Prop :=
  a.dynamic_attribute_flags = CROUCHING_ATTRIBUTE_FLAG

instance (a : NavArea) : Decidable a.requires_crouch := by
  unfold NavArea.requires_crouch; infer_instance

/-- Relative speed of an area (src/nav.rs:307-317):
`(CROUCHING_SPEED or RUNNING_SPEED) / RUNNING_SPEED`. -/
def relativeSpeed (a : NavArea) : ℝ :=
  (if a.requires_crouch then CROUCHING_SPEED else RUNNING_SPEED) / RUNNING_SPEED

/-- The edge weight computed by `Nav::new` (src/nav.rs:298-325) for the edge
from `area` to `connected`: the mean of the two time-adjusted distances. -/
def edgeWeight (area connected : NavArea) : ℝ :=
  let dx := area.centroid.x - connected.centroid.x
  let dy := area.centroid.y - connected.centroid.y
  let dist_weight := Real.sqrt (dx ^ 2 + dy ^ 2)
  let area_time_adjusted_distance := dist_weight / relativeSpeed area
  let connected_area_time_adjusted_distance := dist_weight / relativeSpeed connected
  (area_time_adjusted_distance + connected_area_time_adjusted_distance) / 2

/-- Association-list lookup standing for `areas[&id]`; the default value
mirrors the fact that the source indexes unconditionally (it panics on a
missing id, which well-formed inputs never trigger). -/
def lookupAreaD (areas : List (Nat × NavArea)) (id : Nat) : NavArea :=
  ((areas.find? (fun p => p.1 == id)).map (fun p => p.2)).getD
    (NavArea.new 0 0 [] [] [] [])

/-- The weighted edge list built by the loop of `Nav::new`
(src/nav.rs:298-327): one edge per `(area, connected_area_id)` pair. -/
def navEdges (areas : List (Nat × NavArea)) : List (Nat × Nat × ℝ) :=
  areas.flatMap (fun p =>
    p.2.connections.map (fun cid => (p.1, cid, edgeWeight p.2 (lookupAreaD areas cid))))

/-- `Nav` (src/nav.rs:272-279); the graph is kept as its weighted edge list. -/
structure Nav where
  version : Nat
  sub_version : Nat
  areas : List (Nat × NavArea)
  is_analyzed : Bool
  graph : List (Nat × Nat × ℝ)

/-- `Nav::new` (src/nav.rs:284-336). -/
def Nav.new (version sub_version : Nat) (areas : List (Nat × NavArea))
    (is_analyzed : Bool) : Nav :=
  ⟨version, sub_version, areas, is_analyzed, navEdges areas⟩

/-- Concrete two-area map: area 1 (running) connects to area 2 (crouching). -/
def runAreaC3 : NavArea := NavArea.new 1 0 [⟨0, 0, 0⟩] [2] [] []

def crouchAreaC3 : NavArea := NavArea.new 2 65536 [⟨100, 0, 0⟩] [] [] []

def areasC3 : List (Nat × NavArea) := [(1, runAreaC3), (2, crouchAreaC3)]

/-! ## Collision checking (`src/collisions.rs`)

`f64::INFINITY` / `f64::NEG_INFINITY` (used as fold seeds and as the sentinel
interval bounds of the slab test) are modelled by `⊤` / `⊥` of `EReal`. -/

structure Triangle where
  p1 : Position
  p2 : Position
  p3 : Position

/-- `Triangle::get_centroid`. -/
def Triangle.get_centroid (t : Triangle) : Position :=
  ⟨(t.p1.x + t.p2.x + t.p3.x) / 3, (t.p1.y + t.p2.y + t.p3.y) / 3,
    (t.p1.z + t.p2.z + t.p3.z) / 3⟩

structure Aabb where
  min_point : Position
  max_point : Position

/-- `Aabb::from_triangle`: componentwise min/max of the three vertices. -/
def Aabb.from_triangle (t : Triangle) : Aabb :=
  ⟨⟨min (min t.p1.x t.p2.x) t.p3.x, min (min t.p1.y t.p2.y) t.p3.y,
      min (min t.p1.z t.p2.z) t.p3.z⟩,
    ⟨max (max t.p1.x t.p2.x) t.p3.x, max (max t.p1.y t.p2.y) t.p3.y,
      max (max t.p1.z t.p2.z) t.p3.z⟩⟩

/-- `collisions::check_axis` (src/collisions.rs:90-100). -/
def check_axis (origin direction min_val max_val epsilon : ℝ) : EReal × EReal :=
  if |direction| < epsilon then
    if origin < min_val ∨ origin > max_val then (⊤, ⊥) else (⊥, ⊤)
  else
    (((min ((min_val - origin) / direction) ((max_val - origin) / direction) : ℝ) : EReal),
      ((max ((min_val - origin) / direction) ((max_val - origin) / direction) : ℝ) : EReal))

/-- `Aabb::intersects_ray` (src/collisions.rs:120-149): slab test with
`epsilon = 1e-6`. -/
def Aabb.intersects_ray (b : Aabb) (ray_origin ray_direction : Position) : Prop :=
  let epsilon : ℝ := 1e-6
  let tx := check_axis ray_origin.x ray_direction.x b.min_point.x b.max_point.x epsilon
  let ty := check_axis ray_origin.y ray_direction.y b.min_point.y b.max_point.y epsilon
  let tz := check_axis ray_origin.z ray_direction.z b.min_point.z b.max_point.z epsilon
  let t_enter := max (max tx.1 ty.1) tz.1
  let t_exit := min (min tx.2 ty.2) tz.2
  t_enter ≤ t_exit ∧ ((0 : ℝ) : EReal) ≤ t_exit

/-- `BVHNode` (src/collisions.rs:163-169): a leaf owns one triangle, an inner
node owns two children; every node carries its AABB. -/
inductive BVHNode where
  | leaf (aabb : Aabb) (triangle : Triangle)
  | inner (aabb : Aabb) (left right : BVHNode)

def BVHNode.aabb : BVHNode → Aabb
  | .leaf a _ => a
  | .inner a _ _ => a

/-- `CollisionChecker::ray_triangle_intersection` (src/collisions.rs:281-311):
Möller–Trumbore with `epsilon = 1e-6` and the acceptance condition
`t > epsilon`. -/
def ray_triangle_intersection (ray_origin ray_direction : Position)
    (triangle : Triangle) : Option ℝ :=
  let epsilon : ℝ := 1e-6
  let edge1 := triangle.p2.sub triangle.p1
  let edge2 := triangle.p3.sub triangle.p1
  let h := ray_direction.cross edge2
  let a := edge1.dot h
  if |a| < epsilon then none
  else
    let f := 1 / a
    let s := ray_origin.sub triangle.p1
    let u := f * s.dot h
    if ¬(0 ≤ u ∧ u ≤ 1) then none
    else
      let q := s.cross edge1
      let v := f * ray_direction.dot q
      if v < 0 ∨ u + v > 1 then none
      else
        let t := f * edge2.dot q
        if t > epsilon then some t else none

/-- `CollisionChecker::traverse_bvh` (src/collisions.rs:314-344): prune by the
AABB, test the triangle at a leaf (`t ≤ max_distance`), else visit both
children. -/
def traverse_bvh (node : BVHNode) (ray_origin ray_direction : Position)
    (max_distance : ℝ) : Prop :=
  match node with
  | .leaf aabb tri =>
      aabb.intersects_ray ray_origin ray_direction ∧
        match ray_triangle_intersection ray_origin ray_direction tri with
        | some t => t ≤ max_distance
        | none => False
  | .inner aabb l r =>
      aabb.intersects_ray ray_origin ray_direction ∧
        (traverse_bvh l ray_origin ray_direction max_distance ∨
          traverse_bvh r ray_origin ray_direction max_distance)

structure CollisionChecker where
  n_triangles : Nat
  root : BVHNode

/-- `CollisionChecker::connection_unobstructed` (src/collisions.rs:348-357). -/
def CollisionChecker.connection_unobstructed (c : CollisionChecker)
    (start stop : Position) : Prop :=
  let direction := stop.sub start
  let dist := direction.length
  if dist < 1e-6 then True
  else ¬ traverse_bvh c.root start direction.normalize dist

/-- `CollisionChecker::build_bvh` (src/collisions.rs:188-277), with an explicit
recursion-depth budget `fuel`: the Rust function recurses unboundedly, and
`none` means the recursion does not complete within `fuel` levels (so
`∀ fuel, build_bvh fuel ts = none` says the Rust recursion never returns). -/
def build_bvh : Nat → List Triangle → Option BVHNode
  | 0, _ => none
  | _ + 1, [t] => some (.leaf (Aabb.from_triangle t) t)
  | fuel + 1, triangles =>
    let centroids := triangles.map Triangle.get_centroid
    let xr := centroids.foldl
      (fun (mm : EReal × EReal) c => (min mm.1 (c.x : EReal), max mm.2 (c.x : EReal))) (⊤, ⊥)
    let yr := centroids.foldl
      (fun (mm : EReal × EReal) c => (min mm.1 (c.y : EReal), max mm.2 (c.y : EReal))) (⊤, ⊥)
    let zr := centroids.foldl
      (fun (mm : EReal × EReal) c => (min mm.1 (c.z : EReal), max mm.2 (c.z : EReal))) (⊤, ⊥)
    let x_spread := xr.2 - xr.1
    let y_spread := yr.2 - yr.1
    let z_spread := zr.2 - zr.1
    let axis : Nat :=
      if x_spread ≥ y_spread ∧ x_spread ≥ z_spread then 0
      else if y_spread ≥ z_spread then 1 else 2
    let coord : Triangle → ℝ := fun t =>
      if axis = 0 then t.get_centroid.x else if axis = 1 then t.get_centroid.y
      else t.get_centroid.z
    let triangles_sorted := triangles.mergeSort (fun a b => decide (coord a ≤ coord b))
    let mid := triangles_sorted.length / 2
    match build_bvh fuel (triangles_sorted.take mid),
        build_bvh fuel (triangles_sorted.drop mid) with
    | some l, some r =>
        some (.inner
          ⟨⟨min l.aabb.min_point.x r.aabb.min_point.x,
              min l.aabb.min_point.y r.aabb.min_point.y,
              min l.aabb.min_point.z r.aabb.min_point.z⟩,
            ⟨max l.aabb.max_point.x r.aabb.max_point.x,
              max l.aabb.max_point.y r.aabb.max_point.y,
              max l.aabb.max_point.z r.aabb.max_point.z⟩⟩ l r)
    | _, _ => none

/-- The Rust `build_bvh` completes on the input iff some recursion-depth
budget suffices. -/
def build_bvh_terminates (triangles : List Triangle) : Prop :=
  ∃ fuel node, build_bvh fuel triangles = some node

/-- Triangle in the plane `x = 5e-7`, crossing the segment from `(0,0,0)` to
`(1,0,0)` within the `1e-6` epsilon of the first endpoint. -/
def triC7 : Triangle := ⟨⟨5e-7, -1, -1⟩, ⟨5e-7, 3, -1⟩, ⟨5e-7, -1, 3⟩⟩

def checkerC7 : CollisionChecker := ⟨1, .leaf (Aabb.from_triangle triC7) triC7⟩

/-! ### C4: the walkability double-lift test (`nav::areas_walkable`) -/

/-- Rust `y.atan2(x)`: the four-quadrant arctangent, i.e. the argument of the
complex number `x + i·y`. -/
def atan2 (y x : ℝ) : ℝ := Complex.arg ⟨x, y⟩

/-- The angle computed by `areas_walkable` (src/nav.rs:562-564):
`dx.atan2(dy)` for `dx = c2.x - c1.x`, `dy = c2.y - c1.y`.  Note the argument
order: the source passes `dx` as the `y`-argument of `atan2`. -/
def walkAngle (c1 c2 : Position) : ℝ := atan2 (c2.x - c1.x) (c2.y - c1.y)

/-- The horizontal offset `(dx_corr, dy_corr)` applied to both centroids for a
given `width_correction` (src/nav.rs:567-568). -/
def walkCorrection (c1 c2 : Position) (width_correction : ℝ) : ℝ × ℝ :=
  (width_correction * Real.cos (walkAngle c1 c2),
    width_correction * Real.sin (walkAngle c1 c2))

/-- `nav::areas_walkable` (src/nav.rs:541-585) without a cache: both offset
segments, lifted by the crouch-dependent height, must be unobstructed. -/
def areas_walkable (walk_checker : CollisionChecker) (area1 area2 : NavArea) : Prop :=
  let height := if area1.requires_crouch ∨ area2.requires_crouch
    then PLAYER_CROUCH_HEIGHT else PLAYER_HEIGHT
  let width := 0.9 * PLAYER_WIDTH
  let c1 := area1.centroid
  let c2 := area2.centroid
  ∀ wc ∈ [width / 2, -(width / 2)],
    walk_checker.connection_unobstructed
      ⟨c1.x + (walkCorrection c1 c2 wc).1, c1.y + (walkCorrection c1 c2 wc).2, c1.z + height⟩
      ⟨c2.x + (walkCorrection c1 c2 wc).1, c2.y + (walkCorrection c1 c2 wc).2, c2.z + height⟩

def areaC4a : NavArea := NavArea.new 1 0 [⟨0, 0, 0⟩] [] [] []

def areaC4b : NavArea := NavArea.new 2 0 [⟨1, 1, 0⟩] [] [] []

/-! ## Path finding (`Nav::find_path`, src/nav.rs:338-455) -/

/-- `graph.edge_weight(u, v).unwrap()` over the edge-list graph; the default
`0` stands for the panic on a missing edge, never reached on paths returned by
the search. -/
def edgeWeightLookup (edges : List (Nat × Nat × ℝ)) (u v : Nat) : ℝ :=
  ((edges.find? (fun e => e.1 == u && e.2.1 == v)).map (fun e => e.2.2)).getD 0

/-- `Nav::path_cost` (src/nav.rs:367-372): sum of edge weights over the
consecutive windows of the path. -/
def pathCost (edges : List (Nat × Nat × ℝ)) : List Nat → ℝ
  | u :: v :: rest => edgeWeightLookup edges u v + pathCost edges (v :: rest)
  | _ => 0

def graphSucc (adj : List (Nat × Nat)) (u : Nat) : List Nat :=
  (adj.filter (fun e => e.1 == u)).map (fun e => e.2)

/-- All simple paths from `current` to `goal` avoiding `visited`, with a
recursion budget (a simple path never revisits a node, so a budget of one more
than the edge count is exhaustive). -/
def simplePathsFrom (adj : List (Nat × Nat)) (goal : Nat) :
    Nat → Nat → List Nat → List (List Nat)
  | 0, _, _ => []
  | fuel + 1, current, visited =>
    if current = goal then [[current]]
    else
      (graphSucc adj current).flatMap (fun next =>
        if next ∈ visited ∨ next = current then []
        else (simplePathsFrom adj goal fuel next (current :: visited)).map
          (fun p => current :: p))

def simplePaths (adj : List (Nat × Nat)) (start goal : Nat) : List (List Nat) :=
  simplePathsFrom adj goal (adj.length + 1) start []

/-- Modelled from the spec: `petgraph::algo::astar` (spec §4.C: "A*: heuristic
= 2D Euclidean distance between node centroids; admissible ...  Produces
(cost, ordered list of ids)").  The external crate's search is modelled as the
choice of a minimum-cost simple path from start to goal, whose cost is the sum
of its edge weights; `none` when the goal is unreachable; when start equals
goal the result is `(0, [start])` without scanning any edge. -/
def astarModel (edges : List (Nat × Nat × ℝ)) (start goal : Nat) :
    Option (ℝ × List Nat) :=
  match simplePaths (edges.map (fun e => (e.1, e.2.1))) start goal with
  | [] => none
  | p :: ps =>
    let best := ps.foldl (fun b q => if pathCost edges q < pathCost edges b then q else b) p
    some (pathCost edges best, best)

/-- One crossing test of the even-odd point-in-polygon rule. -/
def edgeCrossing (p : Position) (e : Position × Position) : Prop :=
  ((p.y < e.1.y ∧ ¬ p.y < e.2.y) ∨ (¬ p.y < e.1.y ∧ p.y < e.2.y)) ∧
    p.x < (e.2.x - e.1.x) * (p.y - e.1.y) / (e.2.y - e.1.y) + e.1.x

def crossingCount (p : Position) : List (Position × Position) → Nat
  | [] => 0
  | e :: es => (if edgeCrossing p e then 1 else 0) + crossingCount p es

/-- Modelled from the spec: the external `geo` crate's 2D polygon containment
used by `NavArea::contains` (src/nav.rs:129-131; spec §4.C "a Position
resolves first via 2D polygon containment"), realized as the standard
even-odd crossing rule over the closed corner ring. -/
def NavArea.contains (a : NavArea) (p : Position) : Prop :=
  Odd (crossingCount p (a.corners.zip (a.corners.rotate 1)))

def NavArea.centroid_distance (a : NavArea) (p : Position) : ℝ :=
  a.centroid.distance p

/-- Rust `Iterator::min_by cmp`: the fold keeps the accumulator unless it
compares `Greater` to the candidate, returning the first minimum. -/
def minByFirst {α : Type} (greater : α → α → Prop) : List α → Option α
  | [] => none
  | x :: xs => some (xs.foldl (fun best y => if greater best y then y else best) x)

def filterContains (p : Position) : List NavArea → List NavArea
  | [] => []
  | a :: rest =>
      if a.contains p then a :: filterContains p rest else filterContains p rest

/-- `Nav::find_area` (src/nav.rs:338-347): among the areas containing the
point (2D test), the one minimizing `|centroid.z - position.z|`; the
comparator compares the difference of the two absolute gaps against `0`. -/
def findArea (areas : List (Nat × NavArea)) (position : Position) : Option NavArea :=
  minByFirst
    (fun a b =>
      |a.centroid.z - position.z| - |b.centroid.z - position.z| > 0)
    (filterContains position (areas.map (fun q => q.2)))

/-- `Nav::find_closest_area_centroid` (src/nav.rs:349-358); the default value
models the `unwrap` panic on an empty map, never reached on non-empty maps. -/
def findClosestAreaCentroid (areas : List (Nat × NavArea)) (position : Position) : NavArea :=
  (minByFirst
    (fun a b => a.centroid_distance position > b.centroid_distance position)
    (areas.map (fun q => q.2))).getD (NavArea.new 0 0 [] [] [] [])

inductive AreaIdent where
  | id (v : Nat)
  | pos (p : Position)

structure PathResult where
  path : List NavArea
  distance : ℝ

/-- The exact value of `f64::MAX`. -/
def f64MAX : ℝ := 2 ^ 1024 - 2 ^ 971

/-- Resolution of an `AreaIdent` endpoint to an area id (src/nav.rs:376-393):
`find_area` with the closest-centroid fallback. -/
def resolveAreaId (areas : List (Nat × NavArea)) : AreaIdent → Nat
  | .id v => v
  | .pos p => ((findArea areas p).getD (findClosestAreaCentroid areas p)).area_id

/-- `Nav::find_path` (src/nav.rs:375-455).  The slices of the source map to
`take`/`drop` verbatim: `path_ids[0..=1]` is `take 2`,
`path_ids[1..len-1]` is `drop 1 |> take (len-2)`, and
`path_ids[len-2..len-1]` is `drop (len-2) |> take 1` (a one-element slice). -/
def Nav.find_path (nav : Nav) (start stop : AreaIdent) : PathResult :=
  let start_area := resolveAreaId nav.areas start
  let end_area := resolveAreaId nav.areas stop
  match astarModel nav.graph start_area end_area with
  | none => ⟨[], f64MAX⟩
  | some (distance, path_ids) =>
    let total_distance :=
      if path_ids.length ≤ 2 then
        match start, stop with
        | .pos start_pos, .pos end_pos => start_pos.distance_2d end_pos
        | .id _, .id _ => distance
        | .pos start_pos, .id _ =>
            start_pos.distance_2d (lookupAreaD nav.areas end_area).centroid
        | .id _, .pos end_pos =>
            (lookupAreaD nav.areas start_area).centroid.distance_2d end_pos
      else
        let start_distance :=
          match start with
          | .pos start_pos =>
              start_pos.distance_2d
                (lookupAreaD nav.areas ((path_ids.get? 1).getD 0)).centroid
          | .id _ => pathCost nav.graph (path_ids.take 2)
        let middle_distance :=
          pathCost nav.graph ((path_ids.drop 1).take (path_ids.length - 2))
        let end_distance :=
          match stop with
          | .pos end_pos =>
              (lookupAreaD nav.areas
                ((path_ids.get? (path_ids.length - 2)).getD 0)).centroid.distance_2d end_pos
          | .id _ => pathCost nav.graph ((path_ids.drop (path_ids.length - 2)).take 1)
        start_distance + middle_distance + end_distance
    ⟨path_ids.filterMap
        (fun idv => (nav.areas.find? (fun q => q.1 == idv)).map (fun q => q.2)),
      total_distance⟩

/-! ### C2: total distance of an id-to-id path of length > 2 -/

def areaC2a : NavArea := NavArea.new 1 0 [⟨0, 0, 0⟩] [2] [] []

def areaC2b : NavArea := NavArea.new 2 0 [⟨100, 0, 0⟩] [3] [] []

def areaC2c : NavArea := NavArea.new 3 0 [⟨200, 0, 0⟩] [] [] []

def areasC2 : List (Nat × NavArea) := [(1, areaC2a), (2, areaC2b), (3, areaC2c)]

def navC2 : Nav := Nav.new 0 0 areasC2 true

/-! ### C9: `find_path(Pos(centroid), Id(id))` -/

def sqCorners : List Position := [⟨0, 0, 0⟩, ⟨4, 0, 0⟩, ⟨4, 4, 0⟩, ⟨0, 4, 0⟩]

def areaC9a : NavArea := NavArea.new 1 0 sqCorners [] [] []

def areaC9b : NavArea := NavArea.new 2 0 sqCorners [] [] []

/-- Two areas with identical corner rings (hence identical centroids); the map
iterates area 2 before area 1. -/
def navC9 : Nav := Nav.new 0 0 [(2, areaC9b), (1, areaC9a)] true

def navC9w : Nav := Nav.new 0 0 [(1, areaC9a)] true

/-! ## Spread generation (`src/spread.rs`) -/

/-- `SpawnDistance` (src/spread.rs:30-35). -/
structure SpawnDistance where
  area : NavArea
  distance : ℝ
  path : List Nat

/-- `ReducedSpawnDistance` (src/spread.rs:37-41). -/
structure ReducedSpawnDistance where
  area : Nat
  path : List Nat

/-- `From<&SpawnDistance> for ReducedSpawnDistance`. -/
def SpawnDistance.reduced (s : SpawnDistance) : ReducedSpawnDistance :=
  ⟨s.area.area_id, s.path⟩

/-- `SpreadResult` (src/spread.rs:138-144); the two hash sets are modelled as
duplicate-free lists. -/
structure SpreadResult where
  new_marked_areas_ct : List Nat
  new_marked_areas_t : List Nat
  visibility_connections : List (ReducedSpawnDistance × ReducedSpawnDistance)

inductive SpreadStyle where
  | fine
  | rough

/-- `HashSet::insert` on the list model. -/
def insertSet (x : Nat) (s : List Nat) : List Nat := if x ∈ s then s else x :: s

/-- `spread::round_up_to_next_100`. -/
def round_up_to_next_100 (value : ℝ) : ℝ := (⌈value / 100⌉ : ℤ) * 100

/-- `spread::newly_visible_rough` (src/spread.rs:321-346): returns the
collected opposing areas together with the updated own/opposing spotted sets
(the Rust function mutates them through `&mut`). -/
def newlyVisibleRough (cache : Nat × Nat → Bool) (current : SpawnDistance)
    (previous_opposing : List SpawnDistance) (own_spotted opposing_spotted : List Nat) :
    List SpawnDistance × List Nat × List Nat :=
  if ∃ path_id ∈ current.path, path_id ∈ own_spotted then
    ([], own_spotted, opposing_spotted)
  else
    previous_opposing.foldl
      (fun acc opposing_area =>
        if cache (current.area.area_id, opposing_area.area.area_id) then
          (acc.1 ++ [opposing_area],
            insertSet current.area.area_id acc.2.1,
            insertSet opposing_area.area.area_id acc.2.2)
        else acc)
      ([], own_spotted, opposing_spotted)

/-- The filter of `spread::newly_visible_fine` (src/spread.rs:348-364). -/
def filterFine (cache : Nat × Nat → Bool) (current : SpawnDistance)
    (own_spotted opposing_spotted : List Nat) :
    List SpawnDistance → List SpawnDistance
  | [] => []
  | o :: rest =>
      if ¬(current.area.area_id ∈ own_spotted ∧ o.area.area_id ∈ opposing_spotted) ∧
          cache (current.area.area_id, o.area.area_id) = true then
        o :: filterFine cache current own_spotted opposing_spotted rest
      else filterFine cache current own_spotted opposing_spotted rest

/-- `spread::newly_visible` (src/spread.rs:295-319). -/
def newlyVisible (style : SpreadStyle) (cache : Nat × Nat → Bool)
    (current : SpawnDistance) (previous_opposing : List SpawnDistance)
    (own_spotted opposing_spotted : List Nat) :
    List SpawnDistance × List Nat × List Nat :=
  match style with
  | .fine => (filterFine cache current own_spotted opposing_spotted previous_opposing,
      own_spotted, opposing_spotted)
  | .rough => newlyVisibleRough cache current previous_opposing own_spotted opposing_spotted

/-- The mutable locals of the `generate_spreads` loop (src/spread.rs:176-189). -/
structure SpreadState where
  new_marked_areas_ct : List Nat
  new_marked_areas_t : List Nat
  previous_areas_ct : List SpawnDistance
  previous_areas_t : List SpawnDistance
  spotted_areas_ct : List Nat
  spotted_areas_t : List Nat
  visibility_connections : List (ReducedSpawnDistance × ReducedSpawnDistance)
  last_plotted : ℝ

/-- The frame pushed by `mem::take`-ing the accumulated sets. -/
def terminalFrame (st : SpreadState) : SpreadResult :=
  ⟨st.new_marked_areas_ct, st.new_marked_areas_t, st.visibility_connections⟩

/-- Outcome of one iteration of the `generate_spreads` loop: `stop` pushes a
final frame and breaks, `skip` is the `continue` path, `emit` pushes a frame
and drains the accumulators. -/
inductive StepResult where
  | stop (frame : SpreadResult)
  | skip (st : SpreadState)
  | emit (frame : SpreadResult) (st : SpreadState)

/-- The body of one CT-side iteration of `generate_spreads`
(src/spread.rs:206-289 with the CT tuple selected): mark and append the
current entry, break with a terminal frame on the `f64::MAX` sentinel, apply
the path-shadowing rule, collect newly visible opposing areas, and either
continue or emit a frame. -/
def spreadBodyCt (style : SpreadStyle) (cache : Nat × Nat → Bool)
    (current : SpawnDistance) (st : SpreadState) : StepResult :=
  let st0 := { st with
    new_marked_areas_ct := insertSet current.area.area_id st.new_marked_areas_ct
    previous_areas_ct := st.previous_areas_ct ++ [current] }
  if current.distance = f64MAX then .stop (terminalFrame st0)
  else
    let own0 :=
      if 2 ≤ current.path.length ∧
          (current.path.get? (current.path.length - 2)).getD 0 ∈ st0.spotted_areas_ct then
        insertSet current.area.area_id st0.spotted_areas_ct
      else st0.spotted_areas_ct
    let nv := newlyVisible style cache current st0.previous_areas_t own0 st0.spotted_areas_t
    let visible := nv.1
    let own2 := if visible = [] then nv.2.1 else insertSet current.area.area_id nv.2.1
    let opp2 := if visible = [] then nv.2.2
      else visible.foldl (fun acc v => insertSet v.area.area_id acc) nv.2.2
    let conns2 := if visible = [] then st0.visibility_connections
      else st0.visibility_connections ++ visible.map (fun v => (current.reduced, v.reduced))
    let st1 := { st0 with
      spotted_areas_ct := own2
      spotted_areas_t := opp2
      visibility_connections := conns2 }
    if visible = [] ∧ current.distance ≤ st.last_plotted + 100 then .skip st1
    else .emit (terminalFrame st1)
      { st1 with
        new_marked_areas_ct := []
        new_marked_areas_t := []
        visibility_connections := []
        last_plotted := round_up_to_next_100 current.distance }

/-- The body of one T-side iteration (the mirrored tuple selection). -/
def spreadBodyT (style : SpreadStyle) (cache : Nat × Nat → Bool)
    (current : SpawnDistance) (st : SpreadState) : StepResult :=
  let st0 := { st with
    new_marked_areas_t := insertSet current.area.area_id st.new_marked_areas_t
    previous_areas_t := st.previous_areas_t ++ [current] }
  if current.distance = f64MAX then .stop (terminalFrame st0)
  else
    let own0 :=
      if 2 ≤ current.path.length ∧
          (current.path.get? (current.path.length - 2)).getD 0 ∈ st0.spotted_areas_t then
        insertSet current.area.area_id st0.spotted_areas_t
      else st0.spotted_areas_t
    let nv := newlyVisible style cache current st0.previous_areas_ct own0 st0.spotted_areas_ct
    let visible := nv.1
    let own2 := if visible = [] then nv.2.1 else insertSet current.area.area_id nv.2.1
    let opp2 := if visible = [] then nv.2.2
      else visible.foldl (fun acc v => insertSet v.area.area_id acc) nv.2.2
    let conns2 := if visible = [] then st0.visibility_connections
      else st0.visibility_connections ++ visible.map (fun v => (current.reduced, v.reduced))
    let st1 := { st0 with
      spotted_areas_t := own2
      spotted_areas_ct := opp2
      visibility_connections := conns2 }
    if visible = [] ∧ current.distance ≤ st.last_plotted + 100 then .skip st1
    else .emit (terminalFrame st1)
      { st1 with
        new_marked_areas_ct := []
        new_marked_areas_t := []
        visibility_connections := []
        last_plotted := round_up_to_next_100 current.distance }

/-- The merge loop of `generate_spreads` (src/spread.rs:204-289), with the
remaining suffixes of the two sorted lists standing for the two indices: the
CT side is consumed while the T side is exhausted or strictly farther,
otherwise the T side; when both are exhausted a terminal frame is emitted. -/
def spreadLoop (style : SpreadStyle) (cache : Nat × Nat → Bool) :
    List SpawnDistance → List SpawnDistance → SpreadState → List SpreadResult
  | [], [], st => [terminalFrame st]
  | ct :: ctRest, [], st =>
      match spreadBodyCt style cache ct st with
      | .stop fr => [fr]
      | .skip st' => spreadLoop style cache ctRest [] st'
      | .emit fr st' => fr :: spreadLoop style cache ctRest [] st'
  | [], t :: tRest, st =>
      match spreadBodyT style cache t st with
      | .stop fr => [fr]
      | .skip st' => spreadLoop style cache [] tRest st'
      | .emit fr st' => fr :: spreadLoop style cache [] tRest st'
  | ct :: ctRest, t :: tRest, st =>
      if ct.distance < t.distance then
        match spreadBodyCt style cache ct st with
        | .stop fr => [fr]
        | .skip st' => spreadLoop style cache ctRest (t :: tRest) st'
        | .emit fr st' => fr :: spreadLoop style cache ctRest (t :: tRest) st'
      else
        match spreadBodyT style cache t st with
        | .stop fr => [fr]
        | .skip st' => spreadLoop style cache (ct :: ctRest) tRest st'
        | .emit fr st' => fr :: spreadLoop style cache (ct :: ctRest) tRest st'
  termination_by cts ts _ => cts.length + ts.length

/-- `spread::generate_spreads` (src/spread.rs:166-293). -/
def generate_spreads (spawn_distances_ct spawn_distances_t : List SpawnDistance)
    (style : SpreadStyle) (cache : Nat × Nat → Bool) : List SpreadResult :=
  spreadLoop style cache spawn_distances_ct spawn_distances_t ⟨[], [], [], [], [], [], [], 0⟩

/-- `spread::assert_sorted`: adjacent distances are non-decreasing. -/
def sortedByDistance (l : List SpawnDistance) : Prop :=
  l.Chain' (fun a b => a.distance ≤ b.distance)

def markedCtUnion (frames : List SpreadResult) : List Nat :=
  (frames.map (fun f => f.new_marked_areas_ct)).flatten

def markedTUnion (frames : List SpreadResult) : List Nat :=
  (frames.map (fun f => f.new_marked_areas_t)).flatten

def sdMax1 : SpawnDistance := ⟨NavArea.new 1 0 [] [] [] [], f64MAX, []⟩

def sdMax2 : SpawnDistance := ⟨NavArea.new 2 0 [] [] [] [], f64MAX, []⟩

def sdFifty : SpawnDistance := ⟨NavArea.new 3 0 [] [] [] [], 50, []⟩

/-! ## Theorems -/

/-! ### Facts about `can_jump_to` -/

theorem jump_speed_sq : jump_speed * jump_speed = 89328 := by
  have h : (2.0 : ℝ) * GRAVITY * JUMP_HEIGHT = 89328 := by
    norm_num [GRAVITY, JUMP_HEIGHT]
  rw [jump_speed, h, Real.mul_self_sqrt (by norm_num)]

theorem jump_speed_nonneg : 0 ≤ jump_speed := Real.sqrt_nonneg _

/-- Helper: within the foothold allowance (but at positive 2D distance) the
apex test reduces to `other.z ≤ self.z + 66.02`. -/
theorem can_jump_to_of_within_allowance (p q : Position)
    (hpos : 0 < p.distance_2d q) (hle : p.distance_2d q ≤ PLAYER_WIDTH * 1.15) :
    (p.can_jump_to q ↔ q.z ≤ p.z + 66.02) := by
  simp only [Position.can_jump_to]
  rw [if_neg (not_le.mpr hpos)]
  have hmax0 : max 0 (p.distance_2d q - PLAYER_WIDTH * 1.15) = 0 :=
    max_eq_left (sub_nonpos.mpr hle)
  rw [hmax0]
  have ht : max ((0 : ℝ) / RUNNING_SPEED) (jump_speed / GRAVITY) = jump_speed / GRAVITY := by
    apply max_eq_right
    rw [zero_div]
    exact div_nonneg jump_speed_nonneg (by norm_num [GRAVITY])
  rw [ht]
  have hz : p.z + jump_speed * (jump_speed / GRAVITY)
      - 0.5 * GRAVITY * (jump_speed / GRAVITY) * (jump_speed / GRAVITY)
      + CROUCH_JUMP_HEIGHT_GAIN = p.z + 66.02 := by
    field_simp [CROUCH_JUMP_HEIGHT_GAIN, JUMP_HEIGHT, GRAVITY]
    linear_combination (320000 : ℝ) * jump_speed_sq
  rw [hz, ge_iff_le]

theorem distance_2d_self_eq_zero (p : Position) : p.distance_2d p = 0 := by
  simp [Position.distance_2d]

/-- Helper: at 2D distance zero the function returns `true` unconditionally. -/
theorem can_jump_to_of_zero_2d (p q : Position)
    (h : p.distance_2d q ≤ 0) : p.can_jump_to q := by
  unfold Position.can_jump_to
  rw [if_pos h]
  trivial

/-- Concrete 2D distance used by the C1 counterexample. -/
theorem distance_2d_c1 : (Position.mk 0 0 0).distance_2d (Position.mk 10 0 100) = 10 := by
  unfold Position.distance_2d
  rw [show ((0 : ℝ) - 10) ^ 2 + ((0 : ℝ) - 0) ^ 2 = 10 ^ 2 by norm_num]
  exact Real.sqrt_sq (by norm_num)

/-- C1 (counterexample): the pair `(0,0,0)`, `(10,0,100)` is at 2D distance
`10 ≤ 36.8 = 1.15 * PLAYER_WIDTH`, yet `can_jump_to` returns `false` because
the height difference `100` exceeds the credited apex `66.02`. -/
theorem can_jump_to_within_allowance_can_fail :
    (Position.mk 0 0 0).distance_2d (Position.mk 10 0 100) ≤ PLAYER_WIDTH * 1.15 ∧
      ¬ (Position.mk 0 0 0).can_jump_to (Position.mk 10 0 100) := by
  constructor
  · rw [distance_2d_c1]; norm_num [PLAYER_WIDTH]
  · intro hjump
    have := (can_jump_to_of_within_allowance (Position.mk 0 0 0) (Position.mk 10 0 100)
      (by rw [distance_2d_c1]; norm_num)
      (by rw [distance_2d_c1]; norm_num [PLAYER_WIDTH])).mp hjump
    norm_num at this

/-- C1 (amended): for pairs whose 2D distance is at most the foothold-width
allowance `1.15 * PLAYER_WIDTH`, `can_jump_to` returns true iff the 2D distance
is zero (early return) or the height difference `other.z - self.z` is at most
`JUMP_HEIGHT + CROUCH_JUMP_HEIGHT_GAIN = 66.02` — not regardless of the height
difference. -/
theorem can_jump_to_within_allowance_iff (p q : Position)
    (hle : p.distance_2d q ≤ PLAYER_WIDTH * 1.15) :
    (p.can_jump_to q ↔ (p.distance_2d q ≤ 0 ∨ q.z ≤ p.z + 66.02)) := by
  by_cases hpos : p.distance_2d q ≤ 0
  · constructor
    · intro _; exact Or.inl hpos
    · intro _; exact can_jump_to_of_zero_2d p q hpos
  · have hpos' : 0 < p.distance_2d q := lt_of_not_le hpos
    rw [can_jump_to_of_within_allowance p q hpos' hle]
    constructor
    · intro h; exact Or.inr h
    · rintro (h | h)
      · exact absurd h hpos
      · exact h

/-- C1 (witness for the amended theorem): instantiated at the concrete pair
`(0,0,0)`, `(10,0,100)`. -/
theorem can_jump_to_within_allowance_iff_witness :
    (Position.mk 0 0 0).distance_2d (Position.mk 10 0 100) ≤ PLAYER_WIDTH * 1.15 ∧
      ((Position.mk 0 0 0).can_jump_to (Position.mk 10 0 100) ↔
        ((Position.mk 0 0 0).distance_2d (Position.mk 10 0 100) ≤ 0 ∨
          (100 : ℝ) ≤ 0 + 66.02)) :=
  ⟨by rw [distance_2d_c1]; norm_num [PLAYER_WIDTH],
    can_jump_to_within_allowance_iff (Position.mk 0 0 0) (Position.mk 10 0 100)
      (by rw [distance_2d_c1]; norm_num [PLAYER_WIDTH])⟩

/-- C8 (counterexample): `Position(0,0,0).can_jump_to(Position(0,0,70))`
returns `true`, not `false` as claimed: the horizontal distance is `0`, so the
function takes its early-return branch before any apex test. -/
theorem can_jump_to_straight_up_70 :
    (Position.mk 0 0 0).can_jump_to (Position.mk 0 0 70) :=
  can_jump_to_of_zero_2d _ _ (le_of_eq (by
    unfold Position.distance_2d; simp))

/-! ### C10: totality of the centroid -/

/-- C10: the centroid function is total; on the empty corner list it returns
`(0,0,0)` instead of dividing by zero, and a `NavArea` constructed with no
corners caches centroid `(0,0,0)`. -/
theorem navCentroid_nil_and_new (id flags : Nat) (conns la lb : List Nat) :
    navCentroid [] = Position.mk 0 0 0 ∧
      (NavArea.new id flags [] conns la lb).centroid = Position.mk 0 0 0 := by
  constructor <;> simp [NavArea.new, navCentroid]

/-! ### C3: the edge weights of `Nav::new` -/

theorem relativeSpeed_pos (a : NavArea) : 0 < relativeSpeed a := by
  unfold relativeSpeed
  split <;> norm_num [CROUCHING_SPEED, RUNNING_SPEED]

theorem runAreaC3_centroid : runAreaC3.centroid = Position.mk 0 0 0 := by
  simp [runAreaC3, NavArea.new, navCentroid]

theorem crouchAreaC3_centroid : crouchAreaC3.centroid = Position.mk 100 0 0 := by
  simp [crouchAreaC3, NavArea.new, navCentroid]

theorem edgeWeight_C3 : edgeWeight runAreaC3 (lookupAreaD areasC3 2) = 3350 / 17 := by
  have hlook : lookupAreaD areasC3 2 = crouchAreaC3 := by
    simp [lookupAreaD, areasC3, List.find?]
  rw [hlook]
  unfold edgeWeight
  rw [runAreaC3_centroid, crouchAreaC3_centroid]
  have hs : Real.sqrt (((0 : ℝ) - 100) ^ 2 + ((0 : ℝ) - 0) ^ 2) = 100 := by
    rw [show ((0 : ℝ) - 100) ^ 2 + ((0 : ℝ) - 0) ^ 2 = 100 ^ 2 by norm_num]
    exact Real.sqrt_sq (by norm_num)
  simp only
  rw [hs]
  have h1 : relativeSpeed runAreaC3 = 1 := by
    norm_num [relativeSpeed, runAreaC3, NavArea.new, NavArea.requires_crouch,
      CROUCHING_ATTRIBUTE_FLAG, RUNNING_SPEED]
  have h2 : relativeSpeed crouchAreaC3 = 17 / 50 := by
    norm_num [relativeSpeed, crouchAreaC3, NavArea.new, NavArea.requires_crouch,
      CROUCHING_ATTRIBUTE_FLAG, CROUCHING_SPEED, RUNNING_SPEED]
  rw [h1, h2]
  norm_num

theorem navEdges_areasC3 :
    navEdges areasC3 = [(1, 2, (3350 / 17 : ℝ))] := by
  rw [show navEdges areasC3
      = [(1, 2, edgeWeight runAreaC3 (lookupAreaD areasC3 2))] by
    simp [navEdges, areasC3, runAreaC3, crouchAreaC3, NavArea.new]]
  rw [edgeWeight_C3]

theorem distance_2d_C3 :
    runAreaC3.centroid.distance_2d crouchAreaC3.centroid = 100 := by
  rw [runAreaC3_centroid, crouchAreaC3_centroid]
  unfold Position.distance_2d
  rw [show ((0 : ℝ) - 100) ^ 2 + ((0 : ℝ) - 0) ^ 2 = 100 ^ 2 by norm_num]
  exact Real.sqrt_sq (by norm_num)

/-- C3 (counterexample): in the two-area map `areasC3` the single edge built by
`Nav::new` has weight `3350/17 ≈ 197.06`, which differs from the 2D centroid
distance divided by the arithmetic mean of the two relative speeds
(`10000/67 ≈ 149.25`). -/
theorem navEdges_weight_not_arithmetic_mean :
    navEdges areasC3 = [(1, 2, (3350 / 17 : ℝ))] ∧
      (3350 / 17 : ℝ) ≠
        runAreaC3.centroid.distance_2d crouchAreaC3.centroid /
          ((relativeSpeed runAreaC3 + relativeSpeed crouchAreaC3) / 2) := by
  refine ⟨navEdges_areasC3, ?_⟩
  rw [distance_2d_C3]
  have h1 : relativeSpeed runAreaC3 = 1 := by
    norm_num [relativeSpeed, runAreaC3, NavArea.new, NavArea.requires_crouch,
      CROUCHING_ATTRIBUTE_FLAG, RUNNING_SPEED]
  have h2 : relativeSpeed crouchAreaC3 = 17 / 50 := by
    norm_num [relativeSpeed, crouchAreaC3, NavArea.new, NavArea.requires_crouch,
      CROUCHING_ATTRIBUTE_FLAG, CROUCHING_SPEED, RUNNING_SPEED]
  rw [h1, h2]
  norm_num

/-- C3 (amended): every edge `u → v` added by `Nav::new` has weight equal to
the 2D centroid distance divided by the *harmonic* mean
`2·s_u·s_v/(s_u+s_v)` of the two relative speeds (equivalently, the average of
the two time-adjusted distances `d/s_u` and `d/s_v`), not by their arithmetic
mean. -/
theorem navEdges_weight_harmonic_mean (areas : List (Nat × NavArea))
    (u v : Nat) (w : ℝ) (hmem : (u, v, w) ∈ navEdges areas) :
    ∃ a : NavArea, (u, a) ∈ areas ∧ v ∈ a.connections ∧
      w = a.centroid.distance_2d (lookupAreaD areas v).centroid /
        (2 * relativeSpeed a * relativeSpeed (lookupAreaD areas v) /
          (relativeSpeed a + relativeSpeed (lookupAreaD areas v))) := by
  unfold navEdges at hmem
  rw [List.mem_flatMap] at hmem
  obtain ⟨p, hp, hmem⟩ := hmem
  rw [List.mem_map] at hmem
  obtain ⟨cid, hcid, heq⟩ := hmem
  rw [Prod.ext_iff] at heq
  obtain ⟨h1, heq2⟩ := heq
  rw [Prod.ext_iff] at heq2
  obtain ⟨h2, h3⟩ := heq2
  subst h1; subst h2; subst h3
  refine ⟨p.2, hp, hcid, ?_⟩
  have hsa : relativeSpeed p.2 ≠ 0 := (relativeSpeed_pos p.2).ne'
  have hsb : relativeSpeed (lookupAreaD areas cid) ≠ 0 := (relativeSpeed_pos _).ne'
  have hsab : relativeSpeed p.2 + relativeSpeed (lookupAreaD areas cid) ≠ 0 :=
    (add_pos (relativeSpeed_pos _) (relativeSpeed_pos _)).ne'
  unfold edgeWeight Position.distance_2d
  simp only
  field_simp [hsa, hsb, hsab]
  ring

/-- C3 (witness for the amended theorem): instantiated on the concrete edge
`(1, 2, 3350/17)` of `areasC3`. -/
theorem navEdges_weight_harmonic_mean_witness :
    ((1, 2, (3350 / 17 : ℝ)) ∈ navEdges areasC3) ∧
      ∃ a : NavArea, (1, a) ∈ areasC3 ∧ 2 ∈ a.connections ∧
        (3350 / 17 : ℝ) = a.centroid.distance_2d (lookupAreaD areasC3 2).centroid /
          (2 * relativeSpeed a * relativeSpeed (lookupAreaD areasC3 2) /
            (relativeSpeed a + relativeSpeed (lookupAreaD areasC3 2))) :=
  ⟨by rw [navEdges_areasC3]; exact List.mem_singleton.mpr rfl,
    navEdges_weight_harmonic_mean areasC3 1 2 (3350 / 17)
      (by rw [navEdges_areasC3]; exact List.mem_singleton.mpr rfl)⟩

theorem build_bvh_nil (fuel : Nat) : build_bvh fuel [] = none := by
  induction fuel with
  | zero => rfl
  | succ n ih =>
      rw [show build_bvh (n + 1) [] = match build_bvh n [], build_bvh n [] with
        | some l, some r =>
            some (.inner
              ⟨⟨min l.aabb.min_point.x r.aabb.min_point.x,
                  min l.aabb.min_point.y r.aabb.min_point.y,
                  min l.aabb.min_point.z r.aabb.min_point.z⟩,
                ⟨max l.aabb.max_point.x r.aabb.max_point.x,
                  max l.aabb.max_point.y r.aabb.max_point.y,
                  max l.aabb.max_point.z r.aabb.max_point.z⟩⟩ l r)
        | _, _ => none from by simp [build_bvh]]
      rw [ih]

/-- C6 (counterexample): `CollisionChecker::build_bvh` does not terminate on
the empty triangle soup — the length-1 base case is never reached and the
recursion repeats on the empty list at every depth — so no `CollisionChecker`
(and no always-true `connection_unobstructed`) arises from an empty soup. -/
theorem build_bvh_empty_soup_diverges : ¬ build_bvh_terminates [] := by
  rintro ⟨fuel, node, h⟩
  rw [build_bvh_nil] at h
  cases h

/-- C6 (amended): on zero triangles the BVH construction never completes: for
every recursion-depth budget `build_bvh` fails to produce a node (it splits
the empty list into two empty halves and recurses forever), while on a
one-triangle soup it immediately returns a leaf. -/
theorem build_bvh_nil_none_forall :
    (∀ fuel, build_bvh fuel [] = none) ∧
      (∀ t : Triangle, build_bvh 1 [t] = some (.leaf (Aabb.from_triangle t) t)) :=
  ⟨build_bvh_nil, fun _ => rfl⟩

/-! ### C7: symmetry of `connection_unobstructed` -/

theorem length_sub_comm (p q : Position) : (p.sub q).length = (q.sub p).length := by
  unfold Position.length Position.sub
  simp only
  congr 1
  ring

theorem length_e1 : (Position.mk 1 0 0).length = 1 := by
  unfold Position.length
  rw [show (1 : ℝ) ^ 2 + 0 ^ 2 + 0 ^ 2 = 1 by norm_num, Real.sqrt_one]

theorem length_ne1 : (Position.mk (-1) 0 0).length = 1 := by
  unfold Position.length
  rw [show (-1 : ℝ) ^ 2 + 0 ^ 2 + 0 ^ 2 = 1 by norm_num, Real.sqrt_one]

theorem normalize_e1 : (Position.mk 1 0 0).normalize = Position.mk 1 0 0 := by
  unfold Position.normalize
  rw [length_e1]
  norm_num

theorem normalize_ne1 : (Position.mk (-1) 0 0).normalize = Position.mk (-1) 0 0 := by
  unfold Position.normalize
  rw [length_ne1]
  norm_num

theorem rtiC7_forward :
    ray_triangle_intersection (Position.mk 0 0 0) (Position.mk 1 0 0) triC7 = none := by
  unfold ray_triangle_intersection triC7 Position.sub Position.cross Position.dot
  norm_num

theorem rtiC7_reverse :
    ray_triangle_intersection (Position.mk 1 0 0) (Position.mk (-1) 0 0) triC7 =
      some (1 - 5e-7) := by
  unfold ray_triangle_intersection triC7 Position.sub Position.cross Position.dot
  norm_num

theorem intersectsC7_reverse :
    (Aabb.from_triangle triC7).intersects_ray (Position.mk 1 0 0) (Position.mk (-1) 0 0) := by
  unfold Aabb.intersects_ray Aabb.from_triangle triC7 check_axis
  norm_num

/-- C7 (counterexample): `connection_unobstructed` is not symmetric.  The
triangle `triC7` crosses the segment `(0,0,0) → (1,0,0)` at parameter
`5e-7 < epsilon = 1e-6`, so the forward query ignores the hit (`t > epsilon`
fails) while the reverse query hits it at parameter `1 - 5e-7`. -/
theorem connection_unobstructed_not_symmetric :
    checkerC7.connection_unobstructed (Position.mk 0 0 0) (Position.mk 1 0 0) ∧
      ¬ checkerC7.connection_unobstructed (Position.mk 1 0 0) (Position.mk 0 0 0) := by
  have hsubf : (Position.mk 1 0 0).sub (Position.mk 0 0 0) = Position.mk 1 0 0 := by
    unfold Position.sub; norm_num
  have hsubr : (Position.mk 0 0 0).sub (Position.mk 1 0 0) = Position.mk (-1) 0 0 := by
    unfold Position.sub; norm_num
  constructor
  · simp only [CollisionChecker.connection_unobstructed]
    rw [hsubf, length_e1, if_neg (by norm_num : ¬ (1 : ℝ) < 1e-6), normalize_e1]
    intro h
    simp only [checkerC7, traverse_bvh] at h
    rw [rtiC7_forward] at h
    exact h.2
  · simp only [CollisionChecker.connection_unobstructed]
    rw [hsubr, length_ne1, if_neg (by norm_num : ¬ (1 : ℝ) < 1e-6), normalize_ne1]
    intro h
    refine h ?_
    simp only [checkerC7, traverse_bvh]
    refine ⟨intersectsC7_reverse, ?_⟩
    rw [rtiC7_reverse]
    norm_num

/-- C7 (amended): `connection_unobstructed` is not symmetric in general (hits
within the `t > 1e-6` cutoff of the ray origin are discarded on one side
only); symmetry does hold whenever the two endpoints are less than `1e-6`
apart, in which case both directions return `true` via the early return. -/
theorem connection_unobstructed_symm_of_close (c : CollisionChecker) (a b : Position)
    (h : (b.sub a).length < 1e-6) :
    (c.connection_unobstructed a b ↔ c.connection_unobstructed b a) := by
  have h' : (a.sub b).length < 1e-6 := by rw [length_sub_comm]; exact h
  simp only [CollisionChecker.connection_unobstructed]
  rw [if_pos h, if_pos h']

/-- C7 (witness for the amended theorem): instantiated at coincident
endpoints. -/
theorem connection_unobstructed_symm_of_close_witness :
    ((Position.mk 0 0 0).sub (Position.mk 0 0 0)).length < 1e-6 ∧
      (checkerC7.connection_unobstructed (Position.mk 0 0 0) (Position.mk 0 0 0) ↔
        checkerC7.connection_unobstructed (Position.mk 0 0 0) (Position.mk 0 0 0)) :=
  ⟨by unfold Position.sub Position.length; norm_num,
    connection_unobstructed_symm_of_close checkerC7 (Position.mk 0 0 0) (Position.mk 0 0 0)
      (by unfold Position.sub Position.length; norm_num)⟩

theorem areaC4a_centroid : areaC4a.centroid = Position.mk 0 0 0 := by
  simp [areaC4a, NavArea.new, navCentroid]

theorem areaC4b_centroid : areaC4b.centroid = Position.mk 1 1 0 := by
  simp [areaC4b, NavArea.new, navCentroid]

theorem walkAngle_C4_cos :
    Real.cos (walkAngle (Position.mk 0 0 0) (Position.mk 1 1 0)) = 1 / Real.sqrt 2 := by
  unfold walkAngle atan2
  have hz : (⟨1 - 0, 1 - 0⟩ : ℂ) ≠ 0 := by
    simp [Complex.ext_iff]
  rw [Complex.cos_arg hz]
  have habs : Complex.abs ⟨1 - 0, 1 - 0⟩ = Real.sqrt 2 := by
    rw [Complex.abs_apply, Complex.normSq_mk]
    norm_num
  rw [habs]
  norm_num

theorem walkAngle_C4_sin :
    Real.sin (walkAngle (Position.mk 0 0 0) (Position.mk 1 1 0)) = 1 / Real.sqrt 2 := by
  unfold walkAngle atan2
  rw [Complex.sin_arg]
  have habs : Complex.abs ⟨1 - 0, 1 - 0⟩ = Real.sqrt 2 := by
    rw [Complex.abs_apply, Complex.normSq_mk]
    norm_num
  rw [habs]
  norm_num

/-- C4: at the failing input (centroids `(0,0,0)` and `(1,1,0)`), the
horizontal offset applied by `areas_walkable` to both endpoints is *parallel*
to the centroid-to-centroid direction `(1,1)` (2D cross product `0`), not
perpendicular to it (its dot product with the direction is `28.8/√2 ≠ 0`):
`dx.atan2(dy)` swaps the `atan2` arguments, producing the offset direction
`(dy, dx)` instead of `(-dy, dx)`. -/
theorem walkCorrection_not_perpendicular :
    (walkCorrection areaC4a.centroid areaC4b.centroid (0.9 * PLAYER_WIDTH / 2)).1 *
          (areaC4b.centroid.x - areaC4a.centroid.x) +
        (walkCorrection areaC4a.centroid areaC4b.centroid (0.9 * PLAYER_WIDTH / 2)).2 *
          (areaC4b.centroid.y - areaC4a.centroid.y) ≠ 0 ∧
      (walkCorrection areaC4a.centroid areaC4b.centroid (0.9 * PLAYER_WIDTH / 2)).1 *
          (areaC4b.centroid.y - areaC4a.centroid.y) -
        (walkCorrection areaC4a.centroid areaC4b.centroid (0.9 * PLAYER_WIDTH / 2)).2 *
          (areaC4b.centroid.x - areaC4a.centroid.x) = 0 := by
  rw [areaC4a_centroid, areaC4b_centroid]
  unfold walkCorrection
  simp only
  rw [walkAngle_C4_cos, walkAngle_C4_sin]
  have h2 : Real.sqrt 2 ≠ 0 := ne_of_gt (Real.sqrt_pos.mpr (by norm_num))
  constructor
  · intro h
    field_simp [PLAYER_WIDTH, h2] at h
  · ring

theorem areaC2a_centroid : areaC2a.centroid = Position.mk 0 0 0 := by
  simp [areaC2a, NavArea.new, navCentroid]

theorem areaC2b_centroid : areaC2b.centroid = Position.mk 100 0 0 := by
  simp [areaC2b, NavArea.new, navCentroid]

theorem areaC2c_centroid : areaC2c.centroid = Position.mk 200 0 0 := by
  simp [areaC2c, NavArea.new, navCentroid]

theorem lookupC2_2 : lookupAreaD areasC2 2 = areaC2b := by
  simp [lookupAreaD, areasC2, List.find?]

theorem lookupC2_3 : lookupAreaD areasC2 3 = areaC2c := by
  simp [lookupAreaD, areasC2, List.find?]

theorem edgeWeight_C2ab : edgeWeight areaC2a (lookupAreaD areasC2 2) = 100 := by
  rw [lookupC2_2]
  unfold edgeWeight
  rw [areaC2a_centroid, areaC2b_centroid]
  simp only
  rw [show ((0 : ℝ) - 100) ^ 2 + ((0 : ℝ) - 0) ^ 2 = 100 ^ 2 by norm_num,
    Real.sqrt_sq (by norm_num : (0 : ℝ) ≤ 100)]
  norm_num [relativeSpeed, areaC2a, areaC2b, NavArea.new, NavArea.requires_crouch,
    CROUCHING_ATTRIBUTE_FLAG, RUNNING_SPEED]

theorem edgeWeight_C2bc : edgeWeight areaC2b (lookupAreaD areasC2 3) = 100 := by
  rw [lookupC2_3]
  unfold edgeWeight
  rw [areaC2b_centroid, areaC2c_centroid]
  simp only
  rw [show ((100 : ℝ) - 200) ^ 2 + ((0 : ℝ) - 0) ^ 2 = 100 ^ 2 by norm_num,
    Real.sqrt_sq (by norm_num : (0 : ℝ) ≤ 100)]
  norm_num [relativeSpeed, areaC2b, areaC2c, NavArea.new, NavArea.requires_crouch,
    CROUCHING_ATTRIBUTE_FLAG, RUNNING_SPEED]

theorem astarModel_C2 : astarModel navC2.graph 1 3 = some (200, [1, 2, 3]) := by
  have h0 : astarModel navC2.graph 1 3
      = some (pathCost navC2.graph [1, 2, 3], [1, 2, 3]) := rfl
  rw [h0]
  have h1 : pathCost navC2.graph [1, 2, 3]
      = edgeWeight areaC2a (lookupAreaD areasC2 2)
        + (edgeWeight areaC2b (lookupAreaD areasC2 3) + 0) := rfl
  rw [h1, edgeWeight_C2ab, edgeWeight_C2bc]
  norm_num

/-- C2: in the three-area chain `navC2` the A* search from `1` to `3` yields
the path `[1,2,3]` with raw cost `200`, but `find_path(Id 1, Id 3)` returns
total distance `100`: the end-segment slice `path_ids[len-2..len-1]` contains
a single node, so its window cost is `0` and the final edge's cost is
dropped. -/
theorem find_path_id_id_drops_last_edge :
    (navC2.find_path (.id 1) (.id 3)).distance = 100 ∧
      astarModel navC2.graph 1 3 = some (200, [1, 2, 3]) := by
  refine ⟨?_, astarModel_C2⟩
  have h : (navC2.find_path (.id 1) (.id 3)).distance
      = (edgeWeight areaC2a (lookupAreaD areasC2 2) + 0) + 0 + 0 := rfl
  rw [h, edgeWeight_C2ab]
  norm_num

theorem areaC9a_centroid : areaC9a.centroid = Position.mk 2 2 0 := by
  simp [areaC9a, NavArea.new, navCentroid, sqCorners]
  norm_num

theorem areaC9b_centroid : areaC9b.centroid = Position.mk 2 2 0 := by
  simp [areaC9b, NavArea.new, navCentroid, sqCorners]
  norm_num

theorem crossingCount_sq :
    crossingCount (Position.mk 2 2 0) (sqCorners.zip (sqCorners.rotate 1)) = 1 := by
  have hz : sqCorners.zip (sqCorners.rotate 1) =
      [(⟨0, 0, 0⟩, ⟨4, 0, 0⟩), (⟨4, 0, 0⟩, ⟨4, 4, 0⟩),
        (⟨4, 4, 0⟩, ⟨0, 4, 0⟩), (⟨0, 4, 0⟩, ⟨0, 0, 0⟩)] := by
    simp [sqCorners, List.rotate]
  rw [hz]
  simp only [crossingCount]
  rw [if_neg (by norm_num [edgeCrossing] : ¬ edgeCrossing (Position.mk 2 2 0)
      ((⟨0, 0, 0⟩ : Position), (⟨4, 0, 0⟩ : Position)))]
  rw [if_pos (by norm_num [edgeCrossing] : edgeCrossing (Position.mk 2 2 0)
      ((⟨4, 0, 0⟩ : Position), (⟨4, 4, 0⟩ : Position)))]
  rw [if_neg (by norm_num [edgeCrossing] : ¬ edgeCrossing (Position.mk 2 2 0)
      ((⟨4, 4, 0⟩ : Position), (⟨0, 4, 0⟩ : Position)))]
  rw [if_neg (by norm_num [edgeCrossing] : ¬ edgeCrossing (Position.mk 2 2 0)
      ((⟨0, 4, 0⟩ : Position), (⟨0, 0, 0⟩ : Position)))]

theorem areaC9a_contains : areaC9a.contains (Position.mk 2 2 0) := by
  unfold NavArea.contains
  have hc : areaC9a.corners = sqCorners := rfl
  rw [hc, crossingCount_sq]
  exact ⟨0, by norm_num⟩

theorem areaC9b_contains : areaC9b.contains (Position.mk 2 2 0) := by
  unfold NavArea.contains
  have hc : areaC9b.corners = sqCorners := rfl
  rw [hc, crossingCount_sq]
  exact ⟨0, by norm_num⟩

theorem findArea_C9 :
    findArea navC9.areas (Position.mk 2 2 0) = some areaC9b := by
  have hareas : navC9.areas = [(2, areaC9b), (1, areaC9a)] := rfl
  rw [hareas]
  unfold findArea
  have hfc : filterContains (Position.mk 2 2 0)
      ([(2, areaC9b), (1, areaC9a)].map (fun q => q.2)) = [areaC9b, areaC9a] := by
    simp only [List.map]
    simp only [filterContains]
    rw [if_pos areaC9b_contains, if_pos areaC9a_contains]
  rw [hfc]
  unfold minByFirst
  simp only [List.foldl]
  rw [if_neg]
  rw [areaC9a_centroid, areaC9b_centroid]
  norm_num

theorem resolve_C9 :
    resolveAreaId navC9.areas (.pos areaC9a.centroid) = 2 := by
  rw [areaC9a_centroid]
  show ((findArea navC9.areas (Position.mk 2 2 0)).getD
      (findClosestAreaCentroid navC9.areas (Position.mk 2 2 0))).area_id = 2
  rw [findArea_C9]
  rfl

/-- C9 (counterexample): in `navC9`, the centroid `c = (2,2,0)` of area `1`
also lies inside area `2` (identical polygon); `find_area` breaks the
`|centroid.z - z|` tie in favor of the earlier-iterated area `2`, A* then finds
no path from `2` to `1` (there are no edges), and `find_path(Pos c, Id 1)`
returns the empty path with the `f64::MAX` sentinel instead of `([1], 0)`. -/
theorem find_path_centroid_roundtrip_fails :
    (navC9.find_path (.pos areaC9a.centroid) (.id 1)).path = [] ∧
      (navC9.find_path (.pos areaC9a.centroid) (.id 1)).distance = f64MAX ∧
      (f64MAX : ℝ) ≠ 0 := by
  have hfp : navC9.find_path (.pos areaC9a.centroid) (.id 1) = ⟨[], f64MAX⟩ := by
    simp only [Nav.find_path]
    rw [resolve_C9]
    have hres1 : resolveAreaId navC9.areas (.id 1) = 1 := rfl
    rw [hres1]
    have hast : astarModel navC9.graph 2 1 = none := rfl
    rw [hast]
  rw [hfp]
  refine ⟨rfl, rfl, ?_⟩
  norm_num [f64MAX]

/-- C9 (amended): `find_path(Pos c, Id id)` with `c` the centroid of area `id`
returns the one-element path `[id]` with total distance `0` *provided the
start-position resolution maps `c` back to area `id` itself*; in general
another area may capture `c` (e.g. an identical polygon iterated earlier), and
the round trip fails. -/
theorem find_path_centroid_of_resolves (nav : Nav) (idv : Nat) (area : NavArea)
    (hlu : nav.areas.find? (fun q => q.1 == idv) = some (idv, area))
    (hres : resolveAreaId nav.areas (.pos area.centroid) = idv) :
    (nav.find_path (.pos area.centroid) (.id idv)).path = [area] ∧
      (nav.find_path (.pos area.centroid) (.id idv)).distance = 0 := by
  have hsp : simplePaths (nav.graph.map (fun e => (e.1, e.2.1))) idv idv
      = [[idv]] := by
    unfold simplePaths
    rw [simplePathsFrom]
    rw [if_pos rfl]
  have hast : astarModel nav.graph idv idv = some (0, [idv]) := by
    unfold astarModel
    rw [hsp]
    simp only [List.foldl]
    rfl
  have hlook : lookupAreaD nav.areas idv = area := by
    unfold lookupAreaD
    rw [hlu]
    rfl
  simp only [Nav.find_path]
  rw [hres]
  have hres1 : resolveAreaId nav.areas (.id idv) = idv := rfl
  rw [hres1, hast]
  simp only [List.length_cons, List.length_nil]
  rw [if_pos (by norm_num : 0 + 1 ≤ 2)]
  constructor
  · show [idv].filterMap
        (fun idv2 => (nav.areas.find? (fun q => q.1 == idv2)).map (fun q => q.2)) = [area]
    simp only [List.filterMap_cons, List.filterMap_nil, hlu, Option.map_some']
  · show area.centroid.distance_2d (lookupAreaD nav.areas idv).centroid = 0
    rw [hlook, distance_2d_self_eq_zero]

theorem resolve_C9w :
    resolveAreaId navC9w.areas (.pos areaC9a.centroid) = 1 := by
  rw [areaC9a_centroid]
  show ((findArea navC9w.areas (Position.mk 2 2 0)).getD
      (findClosestAreaCentroid navC9w.areas (Position.mk 2 2 0))).area_id = 1
  have hfa : findArea navC9w.areas (Position.mk 2 2 0) = some areaC9a := by
    have hareas : navC9w.areas = [(1, areaC9a)] := rfl
    rw [hareas]
    unfold findArea
    have hfc : filterContains (Position.mk 2 2 0)
        ([(1, areaC9a)].map (fun q => q.2)) = [areaC9a] := by
      simp only [List.map]
      simp only [filterContains]
      rw [if_pos areaC9a_contains]
    rw [hfc]
    rfl
  rw [hfa]
  rfl

/-- C9 (witness for the amended theorem): the one-area map `navC9w`, whose
start resolution does return area `1`. -/
theorem find_path_centroid_of_resolves_witness :
    (navC9w.areas.find? (fun q => q.1 == 1) = some (1, areaC9a)) ∧
      resolveAreaId navC9w.areas (.pos areaC9a.centroid) = 1 ∧
      ((navC9w.find_path (.pos areaC9a.centroid) (.id 1)).path = [areaC9a] ∧
        (navC9w.find_path (.pos areaC9a.centroid) (.id 1)).distance = 0) :=
  ⟨rfl, resolve_C9w, find_path_centroid_of_resolves navC9w 1 areaC9a rfl resolve_C9w⟩

/-! ### C5: processing of the two sorted lists -/

theorem mem_insertSet_self (a : Nat) (s : List Nat) : a ∈ insertSet a s := by
  unfold insertSet
  by_cases h : a ∈ s
  · rw [if_pos h]; exact h
  · rw [if_neg h]; exact List.mem_cons_self a s

theorem mem_insertSet_of_mem {a : Nat} {s : List Nat} (b : Nat) (h : a ∈ s) :
    a ∈ insertSet b s := by
  unfold insertSet
  by_cases hb : b ∈ s
  · rw [if_pos hb]; exact h
  · rw [if_neg hb]; exact List.mem_cons_of_mem b h

theorem markedCtUnion_cons (f : SpreadResult) (rest : List SpreadResult) :
    markedCtUnion (f :: rest) = f.new_marked_areas_ct ++ markedCtUnion rest := by
  simp [markedCtUnion]

theorem markedTUnion_cons (f : SpreadResult) (rest : List SpreadResult) :
    markedTUnion (f :: rest) = f.new_marked_areas_t ++ markedTUnion rest := by
  simp [markedTUnion]

/-- How one CT-side step transforms the two marked accumulators. -/
theorem spreadBodyCt_stop_marked (style : SpreadStyle) (cache : Nat × Nat → Bool)
    (current : SpawnDistance) (st : SpreadState) (fr : SpreadResult)
    (hb : spreadBodyCt style cache current st = .stop fr) :
    fr.new_marked_areas_ct = insertSet current.area.area_id st.new_marked_areas_ct ∧
      fr.new_marked_areas_t = st.new_marked_areas_t := by
  simp only [spreadBodyCt] at hb
  split at hb
  · cases hb; exact ⟨rfl, rfl⟩
  · split at hb <;> split at hb <;>
      first
      | (cases hb; exact ⟨rfl, rfl⟩)
      | cases hb

theorem spreadBodyCt_skip_marked (style : SpreadStyle) (cache : Nat × Nat → Bool)
    (current : SpawnDistance) (st : SpreadState) (st' : SpreadState)
    (hb : spreadBodyCt style cache current st = .skip st') :
    st'.new_marked_areas_ct = insertSet current.area.area_id st.new_marked_areas_ct ∧
      st'.new_marked_areas_t = st.new_marked_areas_t := by
  simp only [spreadBodyCt] at hb
  split at hb
  · cases hb
  · split at hb <;> split at hb <;>
      first
      | (cases hb; exact ⟨rfl, rfl⟩)
      | cases hb

theorem spreadBodyCt_emit_marked (style : SpreadStyle) (cache : Nat × Nat → Bool)
    (current : SpawnDistance) (st : SpreadState) (fr : SpreadResult) (st' : SpreadState)
    (hb : spreadBodyCt style cache current st = .emit fr st') :
    fr.new_marked_areas_ct = insertSet current.area.area_id st.new_marked_areas_ct ∧
      fr.new_marked_areas_t = st.new_marked_areas_t := by
  simp only [spreadBodyCt] at hb
  split at hb
  · cases hb
  · split at hb <;> split at hb <;>
      first
      | (cases hb; exact ⟨rfl, rfl⟩)
      | cases hb

/-- How one T-side step transforms the two marked accumulators. -/
theorem spreadBodyT_stop_marked (style : SpreadStyle) (cache : Nat × Nat → Bool)
    (current : SpawnDistance) (st : SpreadState) (fr : SpreadResult)
    (hb : spreadBodyT style cache current st = .stop fr) :
    fr.new_marked_areas_ct = st.new_marked_areas_ct ∧
      fr.new_marked_areas_t = insertSet current.area.area_id st.new_marked_areas_t := by
  simp only [spreadBodyT] at hb
  split at hb
  · cases hb; exact ⟨rfl, rfl⟩
  · split at hb <;> split at hb <;>
      first
      | (cases hb; exact ⟨rfl, rfl⟩)
      | cases hb

theorem spreadBodyT_skip_marked (style : SpreadStyle) (cache : Nat × Nat → Bool)
    (current : SpawnDistance) (st : SpreadState) (st' : SpreadState)
    (hb : spreadBodyT style cache current st = .skip st') :
    st'.new_marked_areas_ct = st.new_marked_areas_ct ∧
      st'.new_marked_areas_t = insertSet current.area.area_id st.new_marked_areas_t := by
  simp only [spreadBodyT] at hb
  split at hb
  · cases hb
  · split at hb <;> split at hb <;>
      first
      | (cases hb; exact ⟨rfl, rfl⟩)
      | cases hb

theorem spreadBodyT_emit_marked (style : SpreadStyle) (cache : Nat × Nat → Bool)
    (current : SpawnDistance) (st : SpreadState) (fr : SpreadResult) (st' : SpreadState)
    (hb : spreadBodyT style cache current st = .emit fr st') :
    fr.new_marked_areas_ct = st.new_marked_areas_ct ∧
      fr.new_marked_areas_t = insertSet current.area.area_id st.new_marked_areas_t := by
  simp only [spreadBodyT] at hb
  split at hb
  · cases hb
  · split at hb <;> split at hb <;>
      first
      | (cases hb; exact ⟨rfl, rfl⟩)
      | cases hb

/-- A CT-side step never breaks when the entry does not carry the sentinel. -/
theorem spreadBodyCt_ne_stop (style : SpreadStyle) (cache : Nat × Nat → Bool)
    (current : SpawnDistance) (st : SpreadState) (h : current.distance ≠ f64MAX) :
    ∀ fr, spreadBodyCt style cache current st ≠ .stop fr := by
  intro fr
  simp only [spreadBodyCt]
  rw [if_neg h]
  split <;> split <;> simp

theorem spreadBodyT_ne_stop (style : SpreadStyle) (cache : Nat × Nat → Bool)
    (current : SpawnDistance) (st : SpreadState) (h : current.distance ≠ f64MAX) :
    ∀ fr, spreadBodyT style cache current st ≠ .stop fr := by
  intro fr
  simp only [spreadBodyT]
  rw [if_neg h]
  split <;> split <;> simp

/-- Every id already in the CT marked accumulator ends up in some emitted
frame: each exit path of the loop drains the accumulator into a frame. -/
theorem spreadLoop_drains_ct (style : SpreadStyle) (cache : Nat × Nat → Bool) :
    ∀ (n : Nat) (cts ts : List SpawnDistance) (st : SpreadState) (a : Nat),
      cts.length + ts.length ≤ n → a ∈ st.new_marked_areas_ct →
      a ∈ markedCtUnion (spreadLoop style cache cts ts st) := by
  intro n
  induction n with
  | zero =>
    intro cts ts st a hlen ha
    have hc : cts = [] := List.length_eq_zero.mp
      (Nat.le_zero.mp (le_trans (Nat.le_add_right _ _) hlen))
    have ht : ts = [] := List.length_eq_zero.mp
      (Nat.le_zero.mp (le_trans (Nat.le_add_left _ _) hlen))
    subst hc; subst ht
    rw [spreadLoop, markedCtUnion_cons]
    exact List.mem_append_left _ ha
  | succ n ih =>
    intro cts ts st a hlen ha
    cases cts with
    | nil =>
      cases ts with
      | nil =>
        rw [spreadLoop, markedCtUnion_cons]
        exact List.mem_append_left _ ha
      | cons t tRest =>
        cases hb : spreadBodyT style cache t st with
        | stop fr =>
          have hmk := spreadBodyT_stop_marked style cache t st fr hb
          rw [spreadLoop, hb, markedCtUnion_cons]
          exact List.mem_append_left _ (hmk.1 ▸ ha)
        | skip st' =>
          have hmk := spreadBodyT_skip_marked style cache t st st' hb
          rw [spreadLoop, hb]
          exact ih [] tRest st' a (by simp only [List.length_cons, List.length_nil] at hlen ⊢; omega)
            (hmk.1 ▸ ha)
        | emit fr st' =>
          have hmk := spreadBodyT_emit_marked style cache t st fr st' hb
          rw [spreadLoop, hb, markedCtUnion_cons]
          exact List.mem_append_left _ (hmk.1 ▸ ha)
    | cons ct ctRest =>
      cases ts with
      | nil =>
        cases hb : spreadBodyCt style cache ct st with
        | stop fr =>
          have hmk := spreadBodyCt_stop_marked style cache ct st fr hb
          rw [spreadLoop, hb, markedCtUnion_cons]
          exact List.mem_append_left _ (hmk.1 ▸ mem_insertSet_of_mem _ ha)
        | skip st' =>
          have hmk := spreadBodyCt_skip_marked style cache ct st st' hb
          rw [spreadLoop, hb]
          exact ih ctRest [] st' a (by simp only [List.length_cons, List.length_nil] at hlen ⊢; omega)
            (hmk.1 ▸ mem_insertSet_of_mem _ ha)
        | emit fr st' =>
          have hmk := spreadBodyCt_emit_marked style cache ct st fr st' hb
          rw [spreadLoop, hb, markedCtUnion_cons]
          exact List.mem_append_left _ (hmk.1 ▸ mem_insertSet_of_mem _ ha)
      | cons t tRest =>
        rw [spreadLoop]
        by_cases hlt : ct.distance < t.distance
        · rw [if_pos hlt]
          cases hb : spreadBodyCt style cache ct st with
          | stop fr =>
            have hmk := spreadBodyCt_stop_marked style cache ct st fr hb
            rw [markedCtUnion_cons]
            exact List.mem_append_left _ (hmk.1 ▸ mem_insertSet_of_mem _ ha)
          | skip st' =>
            have hmk := spreadBodyCt_skip_marked style cache ct st st' hb
            exact ih ctRest (t :: tRest) st' a
              (by simp only [List.length_cons, List.length_nil] at hlen ⊢; omega)
              (hmk.1 ▸ mem_insertSet_of_mem _ ha)
          | emit fr st' =>
            have hmk := spreadBodyCt_emit_marked style cache ct st fr st' hb
            rw [markedCtUnion_cons]
            exact List.mem_append_left _ (hmk.1 ▸ mem_insertSet_of_mem _ ha)
        · rw [if_neg hlt]
          cases hb : spreadBodyT style cache t st with
          | stop fr =>
            have hmk := spreadBodyT_stop_marked style cache t st fr hb
            rw [markedCtUnion_cons]
            exact List.mem_append_left _ (hmk.1 ▸ ha)
          | skip st' =>
            have hmk := spreadBodyT_skip_marked style cache t st st' hb
            exact ih (ct :: ctRest) tRest st' a
              (by simp only [List.length_cons, List.length_nil] at hlen ⊢; omega)
              (hmk.1 ▸ ha)
          | emit fr st' =>
            have hmk := spreadBodyT_emit_marked style cache t st fr st' hb
            rw [markedCtUnion_cons]
            exact List.mem_append_left _ (hmk.1 ▸ ha)

/-- Every id already in the T marked accumulator ends up in some emitted
frame. -/
theorem spreadLoop_drains_t (style : SpreadStyle) (cache : Nat × Nat → Bool) :
    ∀ (n : Nat) (cts ts : List SpawnDistance) (st : SpreadState) (a : Nat),
      cts.length + ts.length ≤ n → a ∈ st.new_marked_areas_t →
      a ∈ markedTUnion (spreadLoop style cache cts ts st) := by
  intro n
  induction n with
  | zero =>
    intro cts ts st a hlen ha
    have hc : cts = [] := List.length_eq_zero.mp
      (Nat.le_zero.mp (le_trans (Nat.le_add_right _ _) hlen))
    have ht : ts = [] := List.length_eq_zero.mp
      (Nat.le_zero.mp (le_trans (Nat.le_add_left _ _) hlen))
    subst hc; subst ht
    rw [spreadLoop, markedTUnion_cons]
    exact List.mem_append_left _ ha
  | succ n ih =>
    intro cts ts st a hlen ha
    cases cts with
    | nil =>
      cases ts with
      | nil =>
        rw [spreadLoop, markedTUnion_cons]
        exact List.mem_append_left _ ha
      | cons t tRest =>
        cases hb : spreadBodyT style cache t st with
        | stop fr =>
          have hmk := spreadBodyT_stop_marked style cache t st fr hb
          rw [spreadLoop, hb, markedTUnion_cons]
          exact List.mem_append_left _ (hmk.2 ▸ mem_insertSet_of_mem _ ha)
        | skip st' =>
          have hmk := spreadBodyT_skip_marked style cache t st st' hb
          rw [spreadLoop, hb]
          exact ih [] tRest st' a
            (by simp only [List.length_cons, List.length_nil] at hlen ⊢; omega)
            (hmk.2 ▸ mem_insertSet_of_mem _ ha)
        | emit fr st' =>
          have hmk := spreadBodyT_emit_marked style cache t st fr st' hb
          rw [spreadLoop, hb, markedTUnion_cons]
          exact List.mem_append_left _ (hmk.2 ▸ mem_insertSet_of_mem _ ha)
    | cons ct ctRest =>
      cases ts with
      | nil =>
        cases hb : spreadBodyCt style cache ct st with
        | stop fr =>
          have hmk := spreadBodyCt_stop_marked style cache ct st fr hb
          rw [spreadLoop, hb, markedTUnion_cons]
          exact List.mem_append_left _ (hmk.2 ▸ ha)
        | skip st' =>
          have hmk := spreadBodyCt_skip_marked style cache ct st st' hb
          rw [spreadLoop, hb]
          exact ih ctRest [] st' a
            (by simp only [List.length_cons, List.length_nil] at hlen ⊢; omega)
            (hmk.2 ▸ ha)
        | emit fr st' =>
          have hmk := spreadBodyCt_emit_marked style cache ct st fr st' hb
          rw [spreadLoop, hb, markedTUnion_cons]
          exact List.mem_append_left _ (hmk.2 ▸ ha)
      | cons t tRest =>
        rw [spreadLoop]
        by_cases hlt : ct.distance < t.distance
        · rw [if_pos hlt]
          cases hb : spreadBodyCt style cache ct st with
          | stop fr =>
            have hmk := spreadBodyCt_stop_marked style cache ct st fr hb
            rw [markedTUnion_cons]
            exact List.mem_append_left _ (hmk.2 ▸ ha)
          | skip st' =>
            have hmk := spreadBodyCt_skip_marked style cache ct st st' hb
            exact ih ctRest (t :: tRest) st' a
              (by simp only [List.length_cons, List.length_nil] at hlen ⊢; omega)
              (hmk.2 ▸ ha)
          | emit fr st' =>
            have hmk := spreadBodyCt_emit_marked style cache ct st fr st' hb
            rw [markedTUnion_cons]
            exact List.mem_append_left _ (hmk.2 ▸ ha)
        · rw [if_neg hlt]
          cases hb : spreadBodyT style cache t st with
          | stop fr =>
            have hmk := spreadBodyT_stop_marked style cache t st fr hb
            rw [markedTUnion_cons]
            exact List.mem_append_left _ (hmk.2 ▸ mem_insertSet_of_mem _ ha)
          | skip st' =>
            have hmk := spreadBodyT_skip_marked style cache t st st' hb
            exact ih (ct :: ctRest) tRest st' a
              (by simp only [List.length_cons, List.length_nil] at hlen ⊢; omega)
              (hmk.2 ▸ mem_insertSet_of_mem _ ha)
          | emit fr st' =>
            have hmk := spreadBodyT_emit_marked style cache t st fr st' hb
            rw [markedTUnion_cons]
            exact List.mem_append_left _ (hmk.2 ▸ mem_insertSet_of_mem _ ha)

/-- If no entry carries the `f64::MAX` sentinel, the loop consumes every entry
of both lists: each entry's area id appears in the union of its side's marked
sets over all emitted frames. -/
theorem spreadLoop_processes (style : SpreadStyle) (cache : Nat × Nat → Bool) :
    ∀ (n : Nat) (cts ts : List SpawnDistance) (st : SpreadState),
      cts.length + ts.length ≤ n →
      (∀ e ∈ cts, e.distance ≠ f64MAX) →
      (∀ e ∈ ts, e.distance ≠ f64MAX) →
      (∀ e ∈ cts, e.area.area_id ∈ markedCtUnion (spreadLoop style cache cts ts st)) ∧
        (∀ e ∈ ts, e.area.area_id ∈ markedTUnion (spreadLoop style cache cts ts st)) := by
  intro n
  induction n with
  | zero =>
    intro cts ts st hlen _ _
    have hc : cts = [] := List.length_eq_zero.mp
      (Nat.le_zero.mp (le_trans (Nat.le_add_right _ _) hlen))
    have ht : ts = [] := List.length_eq_zero.mp
      (Nat.le_zero.mp (le_trans (Nat.le_add_left _ _) hlen))
    subst hc; subst ht
    exact ⟨by simp, by simp⟩
  | succ n ih =>
    intro cts ts st hlen hct hts
    cases cts with
    | nil =>
      cases ts with
      | nil => exact ⟨by simp, by simp⟩
      | cons t tRest =>
        have hblen : ([] : List SpawnDistance).length + tRest.length ≤ n := by
          simp only [List.length_cons, List.length_nil] at hlen ⊢; omega
        cases hb : spreadBodyT style cache t st with
        | stop fr =>
          exact absurd hb (spreadBodyT_ne_stop style cache t st
            (hts t (List.mem_cons_self t tRest)) fr)
        | skip st' =>
          have hmk := spreadBodyT_skip_marked style cache t st st' hb
          have hrec := ih [] tRest st' hblen (by simp)
            (fun e he => hts e (List.mem_cons_of_mem t he))
          rw [spreadLoop, hb]
          refine ⟨by simp, ?_⟩
          intro e he
          rcases List.mem_cons.mp he with rfl | he'
          · exact spreadLoop_drains_t style cache (tRest.length) [] tRest st' _
              (by simp) (hmk.2 ▸ mem_insertSet_self _ _)
          · exact hrec.2 e he'
        | emit fr st' =>
          have hmk := spreadBodyT_emit_marked style cache t st fr st' hb
          have hrec := ih [] tRest st' hblen (by simp)
            (fun e he => hts e (List.mem_cons_of_mem t he))
          rw [spreadLoop, hb]
          refine ⟨by simp, ?_⟩
          intro e he
          rw [markedTUnion_cons]
          rcases List.mem_cons.mp he with rfl | he'
          · exact List.mem_append_left _ (hmk.2 ▸ mem_insertSet_self _ _)
          · exact List.mem_append_right _ (hrec.2 e he')
    | cons ct ctRest =>
      have hctTail : ∀ e ∈ ctRest, e.distance ≠ f64MAX :=
        fun e he => hct e (List.mem_cons_of_mem ct he)
      cases ts with
      | nil =>
        have hblen : ctRest.length + ([] : List SpawnDistance).length ≤ n := by
          simp only [List.length_cons, List.length_nil] at hlen ⊢; omega
        cases hb : spreadBodyCt style cache ct st with
        | stop fr =>
          exact absurd hb (spreadBodyCt_ne_stop style cache ct st
            (hct ct (List.mem_cons_self ct ctRest)) fr)
        | skip st' =>
          have hmk := spreadBodyCt_skip_marked style cache ct st st' hb
          have hrec := ih ctRest [] st' hblen hctTail (by simp)
          rw [spreadLoop, hb]
          refine ⟨?_, by simp⟩
          intro e he
          rcases List.mem_cons.mp he with rfl | he'
          · exact spreadLoop_drains_ct style cache (ctRest.length) ctRest [] st' _
              (by simp) (hmk.1 ▸ mem_insertSet_self _ _)
          · exact hrec.1 e he'
        | emit fr st' =>
          have hmk := spreadBodyCt_emit_marked style cache ct st fr st' hb
          have hrec := ih ctRest [] st' hblen hctTail (by simp)
          rw [spreadLoop, hb]
          refine ⟨?_, by simp⟩
          intro e he
          rw [markedCtUnion_cons]
          rcases List.mem_cons.mp he with rfl | he'
          · exact List.mem_append_left _ (hmk.1 ▸ mem_insertSet_self _ _)
          · exact List.mem_append_right _ (hrec.1 e he')
      | cons t tRest =>
        have htsTail : ∀ e ∈ tRest, e.distance ≠ f64MAX :=
          fun e he => hts e (List.mem_cons_of_mem t he)
        rw [spreadLoop]
        by_cases hlt : ct.distance < t.distance
        · rw [if_pos hlt]
          have hblen : ctRest.length + (t :: tRest).length ≤ n := by
            simp only [List.length_cons, List.length_nil] at hlen ⊢; omega
          cases hb : spreadBodyCt style cache ct st with
          | stop fr =>
            exact absurd hb (spreadBodyCt_ne_stop style cache ct st
              (hct ct (List.mem_cons_self ct ctRest)) fr)
          | skip st' =>
            have hmk := spreadBodyCt_skip_marked style cache ct st st' hb
            have hrec := ih ctRest (t :: tRest) st' hblen hctTail hts
            refine ⟨?_, hrec.2⟩
            intro e he
            rcases List.mem_cons.mp he with rfl | he'
            · exact spreadLoop_drains_ct style cache (ctRest.length + (t :: tRest).length)
                ctRest (t :: tRest) st' _ (le_refl _) (hmk.1 ▸ mem_insertSet_self _ _)
            · exact hrec.1 e he'
          | emit fr st' =>
            have hmk := spreadBodyCt_emit_marked style cache ct st fr st' hb
            have hrec := ih ctRest (t :: tRest) st' hblen hctTail hts
            constructor
            · intro e he
              rw [markedCtUnion_cons]
              rcases List.mem_cons.mp he with rfl | he'
              · exact List.mem_append_left _ (hmk.1 ▸ mem_insertSet_self _ _)
              · exact List.mem_append_right _ (hrec.1 e he')
            · intro e he
              rw [markedTUnion_cons]
              exact List.mem_append_right _ (hrec.2 e he)
        · rw [if_neg hlt]
          have hblen : (ct :: ctRest).length + tRest.length ≤ n := by
            simp only [List.length_cons, List.length_nil] at hlen ⊢; omega
          cases hb : spreadBodyT style cache t st with
          | stop fr =>
            exact absurd hb (spreadBodyT_ne_stop style cache t st
              (hts t (List.mem_cons_self t tRest)) fr)
          | skip st' =>
            have hmk := spreadBodyT_skip_marked style cache t st st' hb
            have hrec := ih (ct :: ctRest) tRest st' hblen hct htsTail
            refine ⟨hrec.1, ?_⟩
            intro e he
            rcases List.mem_cons.mp he with rfl | he'
            · exact spreadLoop_drains_t style cache ((ct :: ctRest).length + tRest.length)
                (ct :: ctRest) tRest st' _ (le_refl _) (hmk.2 ▸ mem_insertSet_self _ _)
            · exact hrec.2 e he'
          | emit fr st' =>
            have hmk := spreadBodyT_emit_marked style cache t st fr st' hb
            have hrec := ih (ct :: ctRest) tRest st' hblen hct htsTail
            constructor
            · intro e he
              rw [markedCtUnion_cons]
              exact List.mem_append_right _ (hrec.1 e he)
            · intro e he
              rw [markedTUnion_cons]
              rcases List.mem_cons.mp he with rfl | he'
              · exact List.mem_append_left _ (hmk.2 ▸ mem_insertSet_self _ _)
              · exact List.mem_append_right _ (hrec.2 e he')

theorem spreadBodyCt_sdMax1 :
    spreadBodyCt .rough (fun _ => false) sdMax1 ⟨[], [], [], [], [], [], [], 0⟩
      = .stop ⟨[1], [], []⟩ := by
  simp only [spreadBodyCt]
  rw [show sdMax1.distance = f64MAX from rfl, if_pos (Eq.refl f64MAX)]
  simp [terminalFrame, insertSet, sdMax1, NavArea.new]

/-- C5 (counterexample): on the sorted CT list `[sdMax1, sdMax2]` (both with
the `f64::MAX` sentinel) and the empty T list, `generate_spreads` consumes
only the first entry, emits the terminal frame, and stops: the second entry is
never processed (its id `2` appears in no frame) even though the CT list is
not exhausted. -/
theorem generate_spreads_stops_at_max :
    generate_spreads [sdMax1, sdMax2] [] .rough (fun _ => false)
        = [⟨[1], [], []⟩] ∧
      (2 : Nat) ∉ markedCtUnion (generate_spreads [sdMax1, sdMax2] [] .rough (fun _ => false)) := by
  have h : generate_spreads [sdMax1, sdMax2] [] .rough (fun _ => false) = [⟨[1], [], []⟩] := by
    unfold generate_spreads
    rw [spreadLoop, spreadBodyCt_sdMax1]
  refine ⟨h, ?_⟩
  rw [h]
  simp [markedCtUnion]

/-- C5 (amended): `generate_spreads` chooses the next entry as the head of
whichever list has the smaller distance and, *provided no entry carries the
`f64::MAX` sentinel*, processes every entry of both sorted lists (every
entry's area id is recorded in the union of its side's frames) and stops with
a terminal frame only when both lists are exhausted; an entry with the
sentinel distance instead triggers the terminal frame immediately, leaving any
remaining entries unprocessed. -/
theorem generate_spreads_processes_all (style : SpreadStyle) (cache : Nat × Nat → Bool)
    (cts ts : List SpawnDistance)
    (hsortCt : sortedByDistance cts) (hsortT : sortedByDistance ts)
    (hct : ∀ e ∈ cts, e.distance ≠ f64MAX) (hts : ∀ e ∈ ts, e.distance ≠ f64MAX) :
    (∀ e ∈ cts, e.area.area_id ∈ markedCtUnion (generate_spreads cts ts style cache)) ∧
      (∀ e ∈ ts, e.area.area_id ∈ markedTUnion (generate_spreads cts ts style cache)) :=
  spreadLoop_processes style cache (cts.length + ts.length) cts ts
    ⟨[], [], [], [], [], [], [], 0⟩ (le_refl _) hct hts

/-- C5 (witness for the amended theorem): a one-entry CT list at distance `50`
and an empty T list. -/
theorem generate_spreads_processes_all_witness :
    sortedByDistance [sdFifty] ∧ sortedByDistance [] ∧
      (∀ e ∈ [sdFifty], e.distance ≠ f64MAX) ∧
      (∀ e ∈ ([] : List SpawnDistance), e.distance ≠ f64MAX) ∧
      ((∀ e ∈ [sdFifty],
          e.area.area_id ∈ markedCtUnion (generate_spreads [sdFifty] [] .rough (fun _ => false))) ∧
        (∀ e ∈ ([] : List SpawnDistance),
          e.area.area_id ∈ markedTUnion (generate_spreads [sdFifty] [] .rough (fun _ => false)))) :=
  ⟨by simp [sortedByDistance], by simp [sortedByDistance],
    by
      intro e he
      rw [List.mem_singleton.mp he]
      show (50 : ℝ) ≠ f64MAX
      norm_num [f64MAX],
    by simp,
    generate_spreads_processes_all .rough (fun _ => false) [sdFifty] []
      (by simp [sortedByDistance]) (by simp [sortedByDistance])
      (by
        intro e he
        rw [List.mem_singleton.mp he]
        show (50 : ℝ) ≠ f64MAX
        norm_num [f64MAX])
      (by simp)⟩

/-- C8 (amended): both `Position(0,0,0).can_jump_to(Position(0,0,60))` and
`Position(0,0,0).can_jump_to(Position(0,0,70))` return `true`: the 2D distance
is zero in both cases, so the early return fires regardless of height. -/
theorem can_jump_to_straight_up_both :
    (Position.mk 0 0 0).can_jump_to (Position.mk 0 0 60) ∧
      (Position.mk 0 0 0).can_jump_to (Position.mk 0 0 70) :=
  ⟨can_jump_to_of_zero_2d _ _ (le_of_eq (by unfold Position.distance_2d; simp)),
    can_jump_to_of_zero_2d _ _ (le_of_eq (by unfold Position.distance_2d; simp))⟩

end

